import Mathlib

/-!
Shallow embedding of the Ledger & Fiscal Reconciliation Engine of the
condominio-saas backend (`backend/app/services/transaction_service.py`,
`backend/app/api/financial_status.py`, `backend/app/services/automation.py`).

Monetary `Decimal` values are modelled as exact integers (`Int`); every money
operation performed by the engine is addition, subtraction or comparison,
which are exact on `Decimal` and on `Int` alike.  Python compares strings
lexicographically by code point; `strLtB` below implements exactly that
order on Lean strings and is used wherever the source compares
`fiscal_period` strings.
-/

namespace Condo

/-- The `CategoryType` enum from `models.py`. -/
inductive CategoryType where
  | income
  | expense
deriving DecidableEq, Repr

/-- The `TransactionStatus` enum from `models.py`. -/
inductive TransactionStatus where
  | pending
  | confirmed
  | cancelled
  | refunded
deriving DecidableEq, Repr

/-- The `UnitStatus` enum from `models.py`. -/
inductive UnitStatus where
  | occupied
  | vacant
  | maintenance
deriving DecidableEq, Repr

/-- A calendar date (no time component), as stored in `transaction_date`. -/
structure Date where
  year : Nat
  month : Nat
  day : Nat
deriving DecidableEq, Repr

/-- Calendar order on dates: lexicographic on (year, month, day), which is
how a SQL `DATE` column compares. -/
def Date.ltB (a b : Date) : Bool :=
  decide (a.year < b.year ∨ (a.year = b.year ∧
    (a.month < b.month ∨ (a.month = b.month ∧ a.day < b.day))))

/-- Code-point comparison of two characters, as Python compares characters. -/
def charLtB (a b : Char) : Bool := a.val.toNat < b.val.toNat

/-- Lexicographic code-point comparison of two character lists. -/
def strLtAux : List Char → List Char → Bool
  | [], [] => false
  | [], _ :: _ => true
  | _ :: _, [] => false
  | a :: as, b :: bs =>
    if charLtB a b then true
    else if charLtB b a then false
    else strLtAux as bs

/-- Python's `<` on strings: lexicographic comparison by code point. -/
def strLtB (a b : String) : Bool := strLtAux a.data b.data

/-- Zero-padded two-digit rendering, as `strftime "%m"` produces. -/
def pad2 (n : Nat) : String :=
  if n < 10 then "0" ++ toString n else toString n

/-- Zero-padded four-digit rendering, as `strftime "%Y"` produces. -/
def pad4 (n : Nat) : String :=
  if n < 10 then "000" ++ toString n
  else if n < 100 then "00" ++ toString n
  else if n < 1000 then "0" ++ toString n
  else toString n

/-- The `YYYY-MM` string for a year and a month. -/
def periodOf (y m : Nat) : String := pad4 y ++ "-" ++ pad2 m

/-- The `transaction_date.strftime("%Y-%m")`: the `YYYY-MM` truncation of a date. -/
def Date.period (d : Date) : String := periodOf d.year d.month

/-- The `classify_payment` from `transaction_service.py` lines 29-34: compares the
fiscal period string with the date's `YYYY-MM` truncation and returns
`(is_advance, is_late)`.  `fiscal_period > transaction_period` in the source
is `strLtB transaction_period fiscal_period` here. -/
def classify_payment (fiscal_period : String) (transaction_date : Date) :
    Bool × Bool :=
  let transaction_period := transaction_date.period
  (strLtB transaction_period fiscal_period,
   strLtB fiscal_period transaction_period)

/-- The `Category` row: id, owning condominium, name, type, the `is_system`
sharing flag and the `is_common_expense` flag. -/
structure Category where
  id : Nat
  condominium_id : Nat
  name : String
  ctype : CategoryType
  is_system : Bool
  is_common_expense : Bool
deriving DecidableEq, Repr

/-- The `Unit` row (named `CondoUnit` here because `Unit` is taken by Lean):
id, owning condominium, occupancy status, `monthly_fee` and the stored
`balance`.  Both money columns are non-nullable with default 0. -/
structure CondoUnit where
  id : Nat
  condominium_id : Nat
  status : UnitStatus
  monthly_fee : Int
  balance : Int
deriving DecidableEq, Repr

/-- The `Transaction` row with the columns the ledger logic reads or writes.
`condominium_id` is `Option` because `TransactionService.create_transaction`
never sets it (only the automation job does). -/
structure Transaction where
  id : Nat
  condominium_id : Option Nat
  unit_id : Option Nat
  category_id : Nat
  ttype : CategoryType
  amount : Int
  transaction_date : Date
  fiscal_period : String
  status : TransactionStatus
  is_advance_payment : Bool
  is_late_payment : Bool
deriving DecidableEq, Repr

/-- The `TransactionCreate` schema (`schemas/entities.py`): the fields
`create_transaction` reads. -/
structure TransactionCreate where
  ttype : CategoryType
  amount : Int
  transaction_date : Date
  category_id : Nat
  unit_id : Option Nat
  fiscal_period : Option String
deriving DecidableEq, Repr

/-- The `TransactionUpdate` schema: every field is optional; `none` means the
field is absent from the patch.  Inert text fields (description, notes,
payment metadata) are omitted: the ledger never branches on them. -/
structure TransactionUpdate where
  amount : Option Int := none
  transaction_date : Option Date := none
  category_id : Option Nat := none
  unit_id : Option Nat := none
  status : Option TransactionStatus := none
deriving DecidableEq, Repr

/-- The relational store the `TransactionService` operates on.  `nextId`
models the database generating a fresh primary key for each insert. -/
structure State where
  categories : List Category
  units : List CondoUnit
  txs : List Transaction
  nextId : Nat
deriving DecidableEq, Repr

/-- Error codes raised by the service (`ValueError`/`HTTPException`). -/
inductive TxError where
  | categoryNotFound
  | categoryTypeMismatch
  | unitNotFound
  | incomeRequiresUnit
  | duplicatePaymentSamePeriod
  | transactionNotFound
  | alreadyCancelled
deriving DecidableEq, Repr

/-- The `TransactionService._get_category`: first category with the given id. -/
def findCategory (s : State) (cid : Nat) : Option Category :=
  s.categories.find? fun c => c.id == cid

/-- The `TransactionService._get_unit`: first unit with the given id. -/
def findUnit (s : State) (uid : Nat) : Option CondoUnit :=
  s.units.find? fun u => u.id == uid

/-- The `TransactionService.get_transaction` (lines 278-284): lookup by id only;
the query has no condominium filter. -/
def findTx (s : State) (tid : Nat) : Option Transaction :=
  s.txs.find? fun t => t.id == tid

/-- Mutate the unit row with the given id (the ORM holds one object per
primary key, so this is the `unit.balance += ...` in-place mutation). -/
def setUnit (units : List CondoUnit) (uid : Nat) (f : CondoUnit → CondoUnit) :
    List CondoUnit :=
  units.map fun u => if u.id = uid then f u else u

/-- Mutate the transaction row with the given id. -/
def setTx (txs : List Transaction) (tid : Nat) (f : Transaction → Transaction) :
    List Transaction :=
  txs.map fun t => if t.id = tid then f t else t

/-- The `TransactionService._check_duplicate_payment` (lines 447-455): a
transaction with the same unit, category and fiscal period, of income type
and not cancelled. -/
def hasDuplicatePayment (s : State) (uid cid : Nat) (fp : String) : Bool :=
  s.txs.any fun t =>
    t.unit_id == some uid && t.category_id == cid && t.fiscal_period == fp &&
    t.ttype == CategoryType.income && t.status != TransactionStatus.cancelled

/-- The allow-list of income categories that need no unit
(`create_transaction` line 296). -/
def unitlessIncomeCategories : List String :=
  ["Intereses bancarios", "Otros ingresos"]

/-- The fiscal period actually stored by `create_transaction` line 299:
`data.fiscal_period or data.transaction_date.strftime("%Y-%m")` (Python `or`
treats the empty string as absent). -/
def defaultFiscalPeriod (data : TransactionCreate) : String :=
  match data.fiscal_period with
  | some p => if p = "" then data.transaction_date.period else p
  | none => data.transaction_date.period

/-- The row inserted by `create_transaction` lines 307-315: classifier flags
computed from the stored fiscal period, `status=CONFIRMED`, and no
`condominium_id` (the service never sets it). -/
def newTxOf (s : State) (data : TransactionCreate) : Transaction :=
  { id := s.nextId
    condominium_id := none
    unit_id := data.unit_id
    category_id := data.category_id
    ttype := data.ttype
    amount := data.amount
    transaction_date := data.transaction_date
    fiscal_period := defaultFiscalPeriod data
    status := TransactionStatus.confirmed
    is_advance_payment :=
      (classify_payment (defaultFiscalPeriod data) data.transaction_date).1
    is_late_payment :=
      (classify_payment (defaultFiscalPeriod data) data.transaction_date).2 }

/-- Tail of `create_transaction` (lines 299-327): duplicate guard,
classification, insertion with `status=CONFIRMED`, and the unit balance
mutation.  `unitFound` is the unit resolved earlier (or `none`). -/
def createCore (s : State) (data : TransactionCreate) (category : Category)
    (unitFound : Option CondoUnit) : Except TxError (State × Option Int) :=
  if data.ttype = CategoryType.income ∧ data.unit_id.isSome ∧
      category.name = "Cuota de Mantenimiento" ∧
      (match data.unit_id with
       | some uid =>
         hasDuplicatePayment s uid data.category_id (defaultFiscalPeriod data)
       | none => false) = true then
    .error .duplicatePaymentSamePeriod
  else
    match unitFound with
    | some u =>
      let delta := if data.ttype = CategoryType.income then data.amount
                   else -data.amount
      .ok ({ s with
              txs := s.txs ++ [newTxOf s data]
              units := setUnit s.units u.id
                (fun v => { v with balance := v.balance + delta })
              nextId := s.nextId + 1 },
           some (u.balance + delta))
    | none =>
      .ok ({ s with txs := s.txs ++ [newTxOf s data], nextId := s.nextId + 1 },
           none)

/-- The `TransactionService.create_transaction` (lines 286-327): category and
unit validation, then `createCore`. -/
def createTransaction (s : State) (data : TransactionCreate) :
    Except TxError (State × Option Int) :=
  match findCategory s data.category_id with
  | none => .error .categoryNotFound
  | some category =>
    if category.ctype ≠ data.ttype then .error .categoryTypeMismatch
    else
      match data.unit_id with
      | some uid =>
        match findUnit s uid with
        | none => .error .unitNotFound
        | some u => createCore s data category (some u)
      | none =>
        if data.ttype = CategoryType.income ∧
            category.name ∉ unitlessIncomeCategories then
          .error .incomeRequiresUnit
        else createCore s data category none

/-- Field mutation performed by `update_transaction` (lines 338-358), in
source order: amount, status, transaction_date (re-running the classifier
when `fiscal_period` is truthy and the type is income), category, unit. -/
def patchTx (t : Transaction) (data : TransactionUpdate) : Transaction :=
  let t := match data.amount with
    | some a => { t with amount := a }
    | none => t
  let t := match data.status with
    | some st => { t with status := st }
    | none => t
  let t := match data.transaction_date with
    | some d =>
      if t.fiscal_period ≠ "" ∧ t.ttype = CategoryType.income then
        let flags := classify_payment t.fiscal_period d
        { t with transaction_date := d, is_advance_payment := flags.1
                 is_late_payment := flags.2 }
      else { t with transaction_date := d }
    | none => t
  let t := match data.category_id with
    | some c => { t with category_id := c }
    | none => t
  match data.unit_id with
  | some u => { t with unit_id := some u }
  | none => t

/-- The balance change that undoes a transaction's effect: income is
subtracted back, expense is added back. -/
def reversalDelta (t : Transaction) : Int :=
  if t.ttype = CategoryType.income then -t.amount else t.amount

/-- Reverse a transaction's effect on its unit's balance, when the
transaction references a unit and that unit row exists (`transaction.unit`
in the ORM).  `t0` carries the pre-update amount, type and unit. -/
def reverseBalance (s : State) (t0 : Transaction) : List CondoUnit :=
  match t0.unit_id with
  | some uid =>
    match findUnit s uid with
    | some _ =>
      setUnit s.units uid
        fun v => { v with balance := v.balance + reversalDelta t0 }
    | none => s.units
  | none => s.units

/-- The unit list produced by `update_transaction` lines 360-366: reversal
exactly on a `confirmed → cancelled/refunded` status patch, computed from
the pre-update transaction `t0`. -/
def updatedUnits (s : State) (t0 : Transaction) (data : TransactionUpdate) :
    List CondoUnit :=
  match data.status with
  | some st =>
    if t0.status = TransactionStatus.confirmed ∧
        (st = TransactionStatus.cancelled ∨
         st = TransactionStatus.refunded) then
      reverseBalance s t0
    else s.units
  | none => s.units

/-- The `TransactionService.update_transaction` (lines 329-370).  A failed
category or unit validation raises before the session commits, so the
stored state is unchanged on error.  On the `confirmed → cancelled/refunded`
transition the balance is reversed using the pre-update amount, type and
unit. -/
def updateTransaction (s : State) (tid : Nat) (data : TransactionUpdate) :
    Except TxError State :=
  match findTx s tid with
  | none => .error .transactionNotFound
  | some transaction =>
    if (data.category_id.map fun cid => (findCategory s cid).isNone) =
        some true then
      .error .categoryNotFound
    else if (data.unit_id.map fun uid => (findUnit s uid).isNone) =
        some true then
      .error .unitNotFound
    else
      .ok { s with
            txs := setTx s.txs tid fun t => patchTx t data
            units := updatedUnits s transaction data }

/-- The unit list produced by `cancel_transaction` lines 405-410: reversal
exactly when the transaction is confirmed and references an existing
unit. -/
def cancelledUnits (s : State) (t0 : Transaction) : List CondoUnit :=
  if t0.status = TransactionStatus.confirmed then reverseBalance s t0
  else s.units

/-- The `TransactionService.cancel_transaction` (lines 386-436): 404 when the id
does not exist, 400 when the transaction is already *cancelled* (and only
then), balance reversal only when the status is *confirmed* and the
transaction references an existing unit, then `status := cancelled`. -/
def cancelTransaction (s : State) (tid : Nat) : Except TxError State :=
  match findTx s tid with
  | none => .error .transactionNotFound
  | some transaction =>
    if transaction.status = TransactionStatus.cancelled then
      .error .alreadyCancelled
    else
      .ok { s with
            txs := setTx s.txs tid
              fun t => { t with status := TransactionStatus.cancelled }
            units := cancelledUnits s transaction }

/-- Service-level `get_transaction`: the exact query of lines 278-284. -/
def getTransaction (s : State) (tid : Nat) : Option Transaction :=
  findTx s tid

/-- One ledger operation of the public interface. -/
inductive Op where
  | create (data : TransactionCreate)
  | update (tid : Nat) (data : TransactionUpdate)
  | cancel (tid : Nat)
deriving DecidableEq, Repr

/-- Execute one operation; a rejected operation leaves the store unchanged
(the session is rolled back, nothing was committed). -/
def step (s : State) (op : Op) : State :=
  match op with
  | .create data =>
    match createTransaction s data with
    | .ok (s', _) => s'
    | .error _ => s
  | .update tid data =>
    match updateTransaction s tid data with
    | .ok s' => s'
    | .error _ => s
  | .cancel tid =>
    match cancelTransaction s tid with
    | .ok s' => s'
    | .error _ => s

/-- Execute a sequence of ledger operations. -/
def run (s : State) (ops : List Op) : State := ops.foldl step s

/-- Signed contribution of one transaction to the balance of unit `uid`:
confirmed income adds its amount, confirmed expense subtracts it, everything
else contributes nothing. -/
def txDelta (uid : Nat) (t : Transaction) : Int :=
  if t.unit_id = some uid ∧ t.status = TransactionStatus.confirmed then
    (if t.ttype = CategoryType.income then t.amount else -t.amount)
  else 0

/-- Signed sum of all confirmed transactions of unit `uid`. -/
def txSum (txs : List Transaction) (uid : Nat) : Int :=
  (txs.map (txDelta uid)).sum

/-- Sum of amounts of the confirmed income transactions of unit `uid`. -/
def confirmedIncomeSum (txs : List Transaction) (uid : Nat) : Int :=
  ((txs.filter fun t =>
      t.unit_id == some uid && t.status == TransactionStatus.confirmed &&
      t.ttype == CategoryType.income).map (fun t => t.amount)).sum

/-- Sum of amounts of the confirmed expense transactions of unit `uid`. -/
def confirmedExpenseSum (txs : List Transaction) (uid : Nat) : Int :=
  ((txs.filter fun t =>
      t.unit_id == some uid && t.status == TransactionStatus.confirmed &&
      t.ttype == CategoryType.expense).map (fun t => t.amount)).sum

/-- Every stored transaction id is below the id generator. -/
def TxIdsLt (s : State) : Prop := ∀ t ∈ s.txs, t.id < s.nextId

/-- Stored transaction ids are pairwise distinct (primary key). -/
def TxIdsNodup (s : State) : Prop := (s.txs.map (fun t => t.id)).Nodup

/-- The balance invariant of the spec: every unit's stored balance equals the
signed sum of its confirmed transactions. -/
def BalancesOk (s : State) : Prop :=
  ∀ u ∈ s.units, u.balance = txSum s.txs u.id

/-- The full inductive invariant carried through the ledger operations. -/
def Inv (s : State) : Prop := TxIdsNodup s ∧ TxIdsLt s ∧ BalancesOk s

/-- An `updateTransaction` patch that does not touch the amount or the unit
and, if it sets a status, only sets a terminal one. -/
def GoodUpdate (data : TransactionUpdate) : Prop :=
  data.amount = none ∧ data.unit_id = none ∧
  (data.status = none ∨ data.status = some TransactionStatus.cancelled ∨
   data.status = some TransactionStatus.refunded)

/-- Operations covered by the amended balance-invariant claim. -/
def GoodOp : Op → Prop
  | .update _ data => GoodUpdate data
  | _ => True

/-- Conditional sum of transaction amounts, as the SQL
`SUM(CASE WHEN p THEN amount ELSE 0 END)` aggregations compute. -/
def sumIf (txs : List Transaction) (p : Transaction → Prop) [DecidablePred p] :
    Int :=
  (txs.map fun t => if p t then t.amount else 0).sum

/-- Conditional row count, as `COUNT(CASE WHEN p THEN 1 END)` computes. -/
def countIf (txs : List Transaction) (p : Transaction → Prop)
    [DecidablePred p] : Nat :=
  (txs.filter fun t => decide (p t)).length

/-- The `get_month_date_range`, first component: the first day of the month. -/
def monthStart (year month : Nat) : Date := ⟨year, month, 1⟩

/-- The `get_month_date_range`, second component: the first day of the next
month. -/
def monthEnd (year month : Nat) : Date :=
  if month = 12 then ⟨year + 1, 1, 1⟩ else ⟨year, month + 1, 1⟩

/-- Lines 138-148 of `financial_status.py`: id of the first category named
"Emisión de Cuota" that is system-shared or belongs to the tenant
(`cat_result.scalar()` takes the first row or `None`). -/
def resolveInternalChargeId (cats : List Category) (tenant : Nat) :
    Option Nat :=
  ((cats.filter fun c =>
      c.name == "Emisión de Cuota" &&
      (c.is_system || c.condominium_id == tenant)).head?).map fun c => c.id

/-- Line 152: `Transaction.category_id != internal_charge_id` when the
category exists, otherwise accept everything. -/
def excludeInternal (internal : Option Nat) (t : Transaction) : Bool :=
  match internal with
  | some cid => t.category_id != cid
  | none => true

/-- Lines 269-272: the outer-joined category is marked common expense, or
the transaction has no matching category row (`is_common_expense == None`
after a LEFT JOIN miss). -/
def isCommonOk (cats : List Category) (t : Transaction) : Bool :=
  match cats.find? fun c => c.id == t.category_id with
  | some c => c.is_common_expense
  | none => true

/-- Lines 160-181: opening remainder — confirmed rows of the tenant dated
before the month start, income minus real-cash (non-virtual) expenses. -/
def initialBalanceSum (internal : Option Nat) (txs : List Transaction)
    (tenant : Nat) (month_start : Date) : Int :=
  (txs.map fun t =>
    if t.status = TransactionStatus.confirmed ∧
        t.condominium_id = some tenant ∧
        Date.ltB t.transaction_date month_start = true then
      (if t.ttype = CategoryType.income then t.amount
       else if excludeInternal internal t = true then -t.amount else 0)
    else 0).sum

/-- The numeric payload of `FinancialStatusResponse` (income breakdown and
totals; the per-unit detail lists are presentation-only rows derived from
the same filters). -/
structure FinancialTotals where
  initial_balance : Int
  normal_fees : Int
  normal_fees_count : Nat
  late_fees_received : Int
  late_fees_count : Nat
  advances_applied : Int
  advances_applied_count : Nat
  advances_received : Int
  advances_received_count : Nat
  total_expenses : Int
  advance_reserve : Int
  total_income_cash : Int
  net_period_flow : Int
  final_balance : Int
  available_balance : Int
deriving DecidableEq, Repr

/-- The `get_financial_status` (`financial_status.py` lines 111-430), restricted
to its numeric outputs.  `year`/`month` are the parse of the validated
`YYYY-MM` query parameter, so `period = periodOf year month`. -/
def getFinancialStatus (cats : List Category) (txs : List Transaction)
    (tenant : Nat) (year month : Nat) : FinancialTotals :=
  let period := periodOf year month
  let month_start := monthStart year month
  let month_end := monthEnd year month
  let internal := resolveInternalChargeId cats tenant
  let base : Transaction → Prop := fun t =>
    t.status = TransactionStatus.confirmed ∧ t.condominium_id = some tenant
  let inMonth : Transaction → Prop := fun t =>
    Date.ltB t.transaction_date month_start = false ∧
    Date.ltB t.transaction_date month_end = true
  let initial_balance := initialBalanceSum internal txs tenant month_start
  let normalP : Transaction → Prop := fun t =>
    base t ∧ t.ttype = CategoryType.income ∧ t.fiscal_period = period ∧
    inMonth t
  let lateP : Transaction → Prop := fun t =>
    base t ∧ t.ttype = CategoryType.income ∧
    strLtB t.fiscal_period period = true ∧ inMonth t
  let appliedP : Transaction → Prop := fun t =>
    base t ∧ t.ttype = CategoryType.income ∧ t.fiscal_period = period ∧
    Date.ltB t.transaction_date month_start = true
  let advRecvP : Transaction → Prop := fun t =>
    base t ∧ t.ttype = CategoryType.income ∧
    strLtB period t.fiscal_period = true ∧ inMonth t
  let expenseP : Transaction → Prop := fun t =>
    base t ∧ t.ttype = CategoryType.expense ∧
    excludeInternal internal t = true ∧ isCommonOk cats t = true ∧ inMonth t
  let reserveP : Transaction → Prop := fun t =>
    base t ∧ t.ttype = CategoryType.income ∧
    strLtB period t.fiscal_period = true
  let normal_fees := sumIf txs normalP
  let late_fees_received := sumIf txs lateP
  let advances_applied := sumIf txs appliedP
  let advances_received := sumIf txs advRecvP
  let total_expenses := sumIf txs expenseP
  let advance_reserve := sumIf txs reserveP
  let total_income_cash := normal_fees + late_fees_received + advances_received
  let net_period_flow := total_income_cash - total_expenses
  let final_balance := initial_balance + net_period_flow
  let available_balance := final_balance - advance_reserve
  { initial_balance := initial_balance
    normal_fees := normal_fees
    normal_fees_count := countIf txs normalP
    late_fees_received := late_fees_received
    late_fees_count := countIf txs lateP
    advances_applied := advances_applied
    advances_applied_count := countIf txs appliedP
    advances_received := advances_received
    advances_received_count := countIf txs advRecvP
    total_expenses := total_expenses
    advance_reserve := advance_reserve
    total_income_cash := total_income_cash
    net_period_flow := net_period_flow
    final_balance := final_balance
    available_balance := available_balance }

/-- A `User` row, reduced to what the job reads. -/
structure JobUser where
  id : Nat
  role : String
deriving DecidableEq, Repr

/-- The store the scheduled job operates on (it opens its own session and is
not tenant-scoped: category, admin and unit queries are global). -/
structure JobState where
  categories : List Category
  users : List JobUser
  units : List CondoUnit
  txs : List Transaction
  nextId : Nat
deriving DecidableEq, Repr

/-- The dictionary returned by `generate_monthly_fees_job`, reduced to its
numeric fields (`success`, `count`, `existing`; the message is text). -/
structure JobResult where
  success : Bool
  count : Nat
  existing : Nat
deriving DecidableEq, Repr

/-- Line 72: `unit.monthly_fee if unit.monthly_fee else Decimal("300.00")`.
The column is non-nullable with default 0, and Python truthiness treats the
`Decimal` 0 as unset, so the fallback applies exactly when the fee is 0. -/
def feeOf (u : CondoUnit) : Int :=
  if u.monthly_fee = 0 then 300 else u.monthly_fee

/-- The charge row inserted for one unit (lines 74-91): a confirmed expense
dated the first of the month, fiscal period = current period, both
classifier flags false, and the unit's condominium id copied over. -/
def chargeTx (catId : Nat) (charge_date : Date) (period : String) (tid : Nat)
    (u : CondoUnit) : Transaction :=
  { id := tid
    condominium_id := some u.condominium_id
    unit_id := some u.id
    category_id := catId
    ttype := CategoryType.expense
    amount := feeOf u
    transaction_date := charge_date
    fiscal_period := period
    status := TransactionStatus.confirmed
    is_advance_payment := false
    is_late_payment := false }

/-- One charge per unit of the list, with fresh ids from `nid` on. -/
def mkCharges (catId : Nat) (charge_date : Date) (period : String) :
    Nat → List CondoUnit → List Transaction
  | _, [] => []
  | nid, u :: us =>
    chargeTx catId charge_date period nid u ::
      mkCharges catId charge_date period (nid + 1) us

/-- Line 60: `Unit.status == 'OCCUPIED'` (SQLAlchemy resolves the enum name
to the occupied member). -/
def occupiedUnits (s : JobState) : List CondoUnit :=
  s.units.filter fun u => u.status == UnitStatus.occupied

/-- Lines 26-28: `scalar_one_or_none` on categories named "Emisión de
Cuota"; zero rows is a missing-category result, more than one row raises. -/
def jobCategory (s : JobState) : List Category :=
  s.categories.filter fun c => c.name == "Emisión de Cuota"

/-- Lines 35-37: the first admin user. -/
def jobAdmin (s : JobState) : Option JobUser :=
  (s.users.filter fun u => u.role == "admin").head?

/-- Lines 44-52: count of expense transactions in the category for the
current period (no status filter in the source query). -/
def existingCharges (s : JobState) (catId : Nat) (period : String) : Nat :=
  (s.txs.filter fun t =>
    t.category_id == catId && t.fiscal_period == period &&
    t.ttype == CategoryType.expense).length

/-- The `generate_monthly_fees_job` (`automation.py` lines 11-113).  Every
early-return path commits nothing; the generating path appends one charge
per occupied unit and decrements each unit's balance, atomically. -/
def generate_monthly_fees_job (s : JobState) (today : Date) :
    JobResult × JobState :=
  match jobCategory s with
  | [category] =>
    match jobAdmin s with
    | none => ({ success := false, count := 0, existing := 0 }, s)
    | some _ =>
      if existingCharges s category.id today.period > 0 then
        ({ success := true, count := 0,
           existing := existingCharges s category.id today.period }, s)
      else if (occupiedUnits s).isEmpty then
        ({ success := true, count := 0, existing := 0 }, s)
      else
        ({ success := true, count := (occupiedUnits s).length,
           existing := 0 },
         { s with
           txs := s.txs ++ mkCharges category.id
             ⟨today.year, today.month, 1⟩ today.period s.nextId
             (occupiedUnits s)
           units := s.units.map fun u =>
             if u.status = UnitStatus.occupied then
               { u with balance := u.balance - feeOf u }
             else u
           nextId := s.nextId + (occupiedUnits s).length })
  | _ => ({ success := false, count := 0, existing := 0 }, s)

instance (data : TransactionUpdate) : Decidable (GoodUpdate data) := by
  unfold GoodUpdate
  infer_instance

instance (op : Op) : Decidable (GoodOp op) := by
  cases op <;> unfold GoodOp <;> infer_instance

instance (s : State) : Decidable (Inv s) := by
  unfold Inv TxIdsNodup TxIdsLt BalancesOk
  infer_instance

/-- The maintenance-fee income category of the examples. -/
def feeCat : Category :=
  { id := 0, condominium_id := 1, name := "Cuota de Mantenimiento",
    ctype := CategoryType.income, is_system := false,
    is_common_expense := true }

/-- A plain expense category of the examples. -/
def expCat : Category :=
  { id := 1, condominium_id := 1, name := "Mantenimiento",
    ctype := CategoryType.expense, is_system := false,
    is_common_expense := true }

/-- The virtual-issuance category of the examples. -/
def virtCat : Category :=
  { id := 2, condominium_id := 1, name := "Emisión de Cuota",
    ctype := CategoryType.expense, is_system := false,
    is_common_expense := true }

/-- Unit 0 of the examples, with a zero starting balance. -/
def unit0 : CondoUnit :=
  { id := 0, condominium_id := 1, status := UnitStatus.occupied,
    monthly_fee := 100, balance := 0 }

/-- The example ledger store: two categories, one unit, no transactions. -/
def exState : State :=
  { categories := [feeCat, expCat], units := [unit0], txs := [], nextId := 0 }

/-- A maintenance-fee payment for unit 0, period 2025-06. -/
def payData : TransactionCreate :=
  { ttype := CategoryType.income, amount := 100,
    transaction_date := ⟨2025, 6, 5⟩, category_id := 0, unit_id := some 0,
    fiscal_period := some "2025-06" }

/-- An expense charged to unit 0. -/
def expData : TransactionCreate :=
  { ttype := CategoryType.expense, amount := 40,
    transaction_date := ⟨2025, 6, 10⟩, category_id := 1, unit_id := some 0,
    fiscal_period := some "2025-06" }

/-- The patch that only raises the amount to 200. -/
def amountPatch : TransactionUpdate := { amount := some 200 }

/-- The operation sequence of the C1 counterexample: pay 100, then edit the
amount of the confirmed payment to 200. -/
def c1BadOps : List Op := [.create payData, .update 0 amountPatch]

/-- A benign operation sequence: pay, charge, refund the charge by update,
cancel the payment. -/
def c1GoodOps : List Op :=
  [.create payData, .create expData,
   .update 1 { status := some TransactionStatus.refunded },
   .cancel 0]

/-- The admin user the job resolves as actor. -/
def adminU : JobUser := { id := 9, role := "admin" }

/-- A unit whose monthly fee is unset (0, the schema default). -/
def zeroFeeUnit : CondoUnit :=
  { id := 1, condominium_id := 1, status := UnitStatus.occupied,
    monthly_fee := 0, balance := 0 }

/-- An already-generated June charge in the virtual category. -/
def jobTx : Transaction :=
  { id := 5, condominium_id := some 1, unit_id := some 0, category_id := 2,
    ttype := CategoryType.expense, amount := 100,
    transaction_date := ⟨2025, 6, 1⟩, fiscal_period := "2025-06",
    status := TransactionStatus.confirmed, is_advance_payment := false,
    is_late_payment := false }

/-- A job store where the June charges already exist. -/
def jobStateDone : JobState :=
  { categories := [virtCat], users := [adminU], units := [unit0],
    txs := [jobTx], nextId := 6 }

/-- A job store with two occupied units and no charges yet. -/
def jobStateFresh : JobState :=
  { categories := [virtCat], users := [adminU],
    units := [unit0, zeroFeeUnit], txs := [], nextId := 0 }

/-- An unnamed-unit expense creation that omits the fiscal period. -/
def c10Data : TransactionCreate :=
  { ttype := CategoryType.expense, amount := 50,
    transaction_date := ⟨2025, 6, 5⟩, category_id := 1, unit_id := none,
    fiscal_period := none }

/-- A transaction stored for condominium 2. -/
def c9Tx : Transaction :=
  { id := 7, condominium_id := some 2, unit_id := none, category_id := 0,
    ttype := CategoryType.expense, amount := 10,
    transaction_date := ⟨2025, 6, 5⟩, fiscal_period := "2025-06",
    status := TransactionStatus.confirmed, is_advance_payment := false,
    is_late_payment := false }

/-- A store holding only condominium 2's transaction. -/
def c9State : State :=
  { categories := [], units := [], txs := [c9Tx], nextId := 8 }

/-! ## Theorems -/

theorem strLtAux_irrefl (as : List Char) : strLtAux as as = false := by
  induction as with
  | nil => rfl
  | cons a as ih => simp [strLtAux, charLtB, ih]

theorem strLtAux_asymm (as bs : List Char) (h : strLtAux as bs = true) :
    strLtAux bs as = false := by
  induction as generalizing bs with
  | nil => cases bs with
    | nil => simp [strLtAux] at h
    | cons b bs => simp [strLtAux]
  | cons a as ih => cases bs with
    | nil => simp [strLtAux] at h
    | cons b bs =>
      simp only [strLtAux, charLtB] at h ⊢
      by_cases h1 : a.val.toNat < b.val.toNat
      · have h2 : ¬ b.val.toNat < a.val.toNat := Nat.lt_asymm h1
        simp [h1, h2]
      · by_cases h2 : b.val.toNat < a.val.toNat
        · simp [h1, h2] at h
        · simp only [h1, h2, if_false, decide_eq_true_eq] at h ⊢
          simp [h1, h2, ih bs h]

theorem strLtAux_eq (as bs : List Char) (h1 : strLtAux as bs = false)
    (h2 : strLtAux bs as = false) : as = bs := by
  induction as generalizing bs with
  | nil => cases bs with
    | nil => rfl
    | cons b bs => simp [strLtAux] at h1
  | cons a as ih => cases bs with
    | nil => simp [strLtAux] at h2
    | cons b bs =>
      simp only [strLtAux, charLtB] at h1 h2
      by_cases hab : a.val.toNat < b.val.toNat
      · simp [hab] at h1
      · by_cases hba : b.val.toNat < a.val.toNat
        · simp [hab, hba] at h2
        · have hv : a = b := by
            apply Char.ext; apply UInt32.ext
            omega
          have := ih bs (by simpa [hab, hba] using h1)
            (by simpa [hab, hba] using h2)
          simp [hv, this]

theorem strLtB_irrefl (a : String) : strLtB a a = false := strLtAux_irrefl a.data

theorem strLtB_asymm (a b : String) (h : strLtB a b = true) :
    strLtB b a = false :=
  strLtAux_asymm a.data b.data h

theorem strLtB_eq (a b : String) (h1 : strLtB a b = false)
    (h2 : strLtB b a = false) : a = b := by
  cases a; cases b
  have := strLtAux_eq _ _ h1 h2
  simp_all

theorem txSum_eq_income_sub_expense (txs : List Transaction) (uid : Nat) :
    txSum txs uid = confirmedIncomeSum txs uid - confirmedExpenseSum txs uid := by
  induction txs with
  | nil => simp [txSum, confirmedIncomeSum, confirmedExpenseSum]
  | cons t ts ih =>
    simp only [txSum, confirmedIncomeSum, confirmedExpenseSum, List.map_cons,
      List.sum_cons, List.filter_cons] at ih ⊢
    by_cases hu : t.unit_id = some uid
    · by_cases hs : t.status = TransactionStatus.confirmed
      · cases hty : t.ttype <;>
          simp_all [txDelta, hu, hs, hty] <;> ring
      · simp_all [txDelta, hu, hs]
    · simp_all [txDelta, hu]

theorem txSum_append (xs ys : List Transaction) (uid : Nat) :
    txSum (xs ++ ys) uid = txSum xs uid + txSum ys uid := by
  simp [txSum]

theorem setTx_of_forall_ne (txs : List Transaction) (tid : Nat)
    (f : Transaction → Transaction) (h : ∀ t ∈ txs, t.id ≠ tid) :
    setTx txs tid f = txs := by
  induction txs with
  | nil => rfl
  | cons t ts ih =>
    have h1 : t.id ≠ tid := h t (by simp)
    simp only [setTx, List.map_cons, if_neg h1]
    have := ih fun t ht => h t (by simp [ht])
    simp only [setTx] at this
    rw [this]

theorem txSum_setTx (txs : List Transaction) (tid uid : Nat)
    (f : Transaction → Transaction) (t0 : Transaction)
    (hnd : (txs.map (fun t => t.id)).Nodup) (hmem : t0 ∈ txs)
    (hid : t0.id = tid) :
    txSum (setTx txs tid f) uid =
      txSum txs uid + (txDelta uid (f t0) - txDelta uid t0) := by
  induction txs with
  | nil => cases hmem
  | cons t ts ih =>
    simp only [List.map_cons, List.nodup_cons] at hnd
    rcases List.mem_cons.mp hmem with rfl | hmem'
    · have hts : ∀ u ∈ ts, u.id ≠ tid := by
        intro u hu
        rw [← hid]
        intro hc
        exact hnd.1 (hc ▸ List.mem_map_of_mem (fun t => t.id) hu)
      simp only [setTx, List.map_cons, if_pos hid, txSum, List.sum_cons]
      have := setTx_of_forall_ne ts tid f hts
      simp only [setTx] at this
      rw [this]
      ring
    · have hne : t.id ≠ tid := by
        rw [← hid]
        intro hc
        exact hnd.1 (hc ▸ List.mem_map_of_mem (fun t => t.id) hmem')
      simp only [setTx, List.map_cons, if_neg hne, txSum, List.sum_cons]
      have := ih hnd.2 hmem'
      simp only [setTx, txSum] at this
      rw [this]
      ring

theorem setUnit_balancesOk (units : List CondoUnit) (txs txs' : List Transaction)
    (uid : Nat) (delta : Int)
    (hok : ∀ u ∈ units, u.balance = txSum txs u.id)
    (hsame : ∀ w, w ≠ uid → txSum txs' w = txSum txs w)
    (hchg : txSum txs' uid = txSum txs uid + delta) :
    ∀ u ∈ setUnit units uid (fun v => { v with balance := v.balance + delta }),
      u.balance = txSum txs' u.id := by
  intro u' hu'
  simp only [setUnit, List.mem_map] at hu'
  obtain ⟨u, hu, rfl⟩ := hu'
  by_cases h : u.id = uid
  · simp only [if_pos h]
    show u.balance + delta = txSum txs' u.id
    rw [h, hchg]
    have hb := hok u hu
    rw [h] at hb
    rw [hb]
  · simp only [if_neg h]
    show u.balance = txSum txs' u.id
    rw [hsame u.id h, hok u hu]

theorem findTx_mem (s : State) (tid : Nat) (t : Transaction)
    (h : findTx s tid = some t) : t ∈ s.txs ∧ t.id = tid := by
  constructor
  · exact List.mem_of_find?_eq_some h
  · have := List.find?_some h
    simpa using this

theorem findUnit_none_forall (s : State) (uid : Nat)
    (h : findUnit s uid = none) : ∀ u ∈ s.units, u.id ≠ uid := by
  intro u hu
  have := List.find?_eq_none.mp h u hu
  simpa using this

theorem findUnit_some_id (s : State) (uid : Nat) (u : CondoUnit)
    (h : findUnit s uid = some u) : u.id = uid := by
  have := List.find?_some h
  simpa using this

theorem nodup_append_fresh (ids : List Nat) (n : Nat) (hnd : ids.Nodup)
    (hlt : ∀ i ∈ ids, i < n) : (ids ++ [n]).Nodup := by
  rw [List.nodup_append]
  refine ⟨hnd, List.nodup_singleton n, ?_⟩
  intro i hi hin
  have : i = n := by simpa using hin
  have := hlt i hi
  omega

theorem setTx_map_id (txs : List Transaction) (tid : Nat)
    (f : Transaction → Transaction) (hf : ∀ t, (f t).id = t.id) :
    (setTx txs tid f).map (fun t => t.id) = txs.map (fun t => t.id) := by
  induction txs with
  | nil => rfl
  | cons t ts ih =>
    simp only [setTx, List.map_cons] at ih ⊢
    by_cases h : t.id = tid
    · rw [if_pos h, ih, hf]
    · rw [if_neg h, ih]

theorem txSum_singleton (t : Transaction) (uid : Nat) :
    txSum [t] uid = txDelta uid t := by
  simp [txSum]

theorem txDelta_newTxOf (s : State) (data : TransactionCreate) (w : Nat) :
    txDelta w (newTxOf s data) =
      if data.unit_id = some w then
        (if data.ttype = CategoryType.income then data.amount
         else -data.amount)
      else 0 := by
  by_cases h : data.unit_id = some w
  · simp [txDelta, newTxOf, h]
  · simp [txDelta, newTxOf, h]

theorem txIds_append_newTx (s : State) (data : TransactionCreate)
    (hnd : TxIdsNodup s) (hlt : TxIdsLt s) :
    ((s.txs ++ [newTxOf s data]).map (fun t => t.id)).Nodup ∧
      (∀ t ∈ s.txs ++ [newTxOf s data], t.id < s.nextId + 1) := by
  constructor
  · rw [List.map_append, List.map_cons, List.map_nil]
    exact nodup_append_fresh _ _ hnd
      (fun i hi => by
        obtain ⟨t, ht, rfl⟩ := List.mem_map.mp hi
        exact hlt t ht)
  · intro t ht
    rcases List.mem_append.mp ht with h | h
    · have := hlt t h
      omega
    · have : t = newTxOf s data := by simpa using h
      rw [this]
      show s.nextId < s.nextId + 1
      omega

theorem createCore_inv (s : State) (data : TransactionCreate)
    (category : Category) (unitFound : Option CondoUnit) (hinv : Inv s)
    (hrel : (unitFound = none ∧ data.unit_id = none) ∨
      (∃ u, unitFound = some u ∧ data.unit_id = some u.id))
    (s' : State) (nb : Option Int)
    (hok : createCore s data category unitFound = .ok (s', nb)) : Inv s' := by
  obtain ⟨hnd, hlt, hbal⟩ := hinv
  simp only [createCore] at hok
  split at hok
  · exact Except.noConfusion hok
  · rcases hrel with ⟨hun, hdn⟩ | ⟨u, hus, hdu⟩
    · subst hun
      simp only [Except.ok.injEq, Prod.mk.injEq] at hok
      obtain ⟨hs', -⟩ := hok
      subst hs'
      refine ⟨(txIds_append_newTx s data hnd hlt).1,
        (txIds_append_newTx s data hnd hlt).2, ?_⟩
      intro u hu
      show u.balance = txSum (s.txs ++ [newTxOf s data]) u.id
      rw [txSum_append, txSum_singleton, txDelta_newTxOf,
        if_neg (by rw [hdn]; exact fun h => Option.noConfusion h)]
      rw [hbal u hu]
      ring
    · subst hus
      simp only [Except.ok.injEq, Prod.mk.injEq] at hok
      obtain ⟨hs', -⟩ := hok
      subst hs'
      refine ⟨(txIds_append_newTx s data hnd hlt).1,
        (txIds_append_newTx s data hnd hlt).2, ?_⟩
      show ∀ v ∈ setUnit s.units u.id _, _
      apply setUnit_balancesOk s.units s.txs (s.txs ++ [newTxOf s data])
        u.id _ hbal
      · intro w hw
        rw [txSum_append, txSum_singleton, txDelta_newTxOf,
          if_neg (by rw [hdu]; intro h; injection h with h; exact hw h.symm)]
        ring
      · rw [txSum_append, txSum_singleton, txDelta_newTxOf, if_pos hdu]

theorem createTransaction_inv (s : State) (data : TransactionCreate)
    (hinv : Inv s) (s' : State) (nb : Option Int)
    (hok : createTransaction s data = .ok (s', nb)) : Inv s' := by
  simp only [createTransaction] at hok
  split at hok
  · exact Except.noConfusion hok
  next category hcat =>
    split at hok
    · exact Except.noConfusion hok
    · split at hok
      next uid hdu =>
        split at hok
        · exact Except.noConfusion hok
        next u hu =>
          refine createCore_inv s data category (some u) ⟨hinv.1, hinv.2.1,
            hinv.2.2⟩ ?_ s' nb hok
          right
          exact ⟨u, rfl, by rw [hdu, findUnit_some_id s uid u hu]⟩
      next hdu =>
        split at hok
        · exact Except.noConfusion hok
        · exact createCore_inv s data category none ⟨hinv.1, hinv.2.1,
            hinv.2.2⟩ (Or.inl ⟨rfl, hdu⟩) s' nb hok

theorem patchTx_id (t : Transaction) (data : TransactionUpdate) :
    (patchTx t data).id = t.id := by
  obtain ⟨da, dd, dc, du, ds⟩ := data
  cases da <;> cases ds <;> cases dd <;> cases dc <;> cases du <;>
    simp only [patchTx] <;> (try split) <;> rfl

theorem patchTx_good (t : Transaction) (data : TransactionUpdate)
    (hgood : GoodUpdate data) :
    (patchTx t data).unit_id = t.unit_id ∧
    (patchTx t data).amount = t.amount ∧
    (patchTx t data).ttype = t.ttype ∧
    (patchTx t data).status = data.status.getD t.status := by
  obtain ⟨ha, hu, -⟩ := hgood
  obtain ⟨da, dd, dc, du, ds⟩ := data
  simp only at ha hu
  subst ha hu
  cases ds <;> cases dd <;> cases dc <;>
    refine ⟨?_, ?_, ?_, ?_⟩ <;> simp only [patchTx, Option.getD] <;>
    (try split) <;> rfl

theorem txDelta_congr (t t' : Transaction) (h1 : t'.unit_id = t.unit_id)
    (h2 : t'.status = t.status) (h3 : t'.ttype = t.ttype)
    (h4 : t'.amount = t.amount) (w : Nat) : txDelta w t' = txDelta w t := by
  simp [txDelta, h1, h2, h3, h4]

theorem txDelta_not_confirmed (t : Transaction) (w : Nat)
    (h : t.status ≠ TransactionStatus.confirmed) : txDelta w t = 0 := by
  simp [txDelta, h]

theorem txDelta_unit_ne (t : Transaction) (w : Nat)
    (h : t.unit_id ≠ some w) : txDelta w t = 0 := by
  simp [txDelta, h]

theorem reverseBalance_ok (s : State) (t0 : Transaction)
    (txs' : List Transaction) (hbal : BalancesOk s)
    (hconf : t0.status = TransactionStatus.confirmed)
    (hsum : ∀ w, txSum txs' w = txSum s.txs w - txDelta w t0) :
    ∀ u ∈ reverseBalance s t0, u.balance = txSum txs' u.id := by
  cases hu0 : t0.unit_id with
  | none =>
    simp only [reverseBalance, hu0]
    intro u hu
    rw [hsum u.id, txDelta_unit_ne t0 u.id (by rw [hu0]; simp), hbal u hu]
    ring
  | some uid =>
    cases hfu : findUnit s uid with
    | none =>
      simp only [reverseBalance, hu0, hfu]
      intro u hu
      have hne : t0.unit_id ≠ some u.id := by
        rw [hu0]
        intro h
        injection h with h
        exact findUnit_none_forall s uid hfu u hu h.symm
      rw [hsum u.id, txDelta_unit_ne t0 u.id hne, hbal u hu]
      ring
    | some v =>
      simp only [reverseBalance, hu0, hfu]
      apply setUnit_balancesOk s.units s.txs txs' uid (reversalDelta t0) hbal
      · intro w hw
        have hne : t0.unit_id ≠ some w := by
          rw [hu0]
          intro h
          injection h with h
          exact hw h.symm
        rw [hsum w, txDelta_unit_ne t0 w hne]
        ring
      · rw [hsum uid]
        have hdt : txDelta uid t0 =
            (if t0.ttype = CategoryType.income then t0.amount
             else -t0.amount) := by
          simp [txDelta, hu0, hconf]
        rw [hdt]
        cases hty : t0.ttype <;> simp [reversalDelta, hty] <;> ring

theorem unchanged_units_ok (s : State) (txs' : List Transaction)
    (hbal : BalancesOk s)
    (hsame : ∀ u ∈ s.units, txSum txs' u.id = txSum s.txs u.id) :
    ∀ u ∈ s.units, u.balance = txSum txs' u.id := by
  intro u hu
  rw [hsame u hu, hbal u hu]

theorem updateTransaction_inv (s : State) (tid : Nat)
    (data : TransactionUpdate) (hinv : Inv s) (hgood : GoodUpdate data)
    (s' : State) (hok : updateTransaction s tid data = .ok s') : Inv s' := by
  obtain ⟨hnd, hlt, hbal⟩ := hinv
  simp only [updateTransaction] at hok
  split at hok
  · exact Except.noConfusion hok
  next t0 hfind =>
    split at hok
    · exact Except.noConfusion hok
    · split at hok
      · exact Except.noConfusion hok
      · simp only [Except.ok.injEq] at hok
        subst hok
        obtain ⟨hmem, hid⟩ := findTx_mem s tid t0 hfind
        obtain ⟨hpu, hpa, hpt, hps⟩ := patchTx_good t0 data hgood
        have hsum := fun w => txSum_setTx s.txs tid w
          (fun t => patchTx t data) t0 hnd hmem hid
        refine ⟨?_, ?_, ?_⟩
        · show ((setTx s.txs tid _).map _).Nodup
          rw [setTx_map_id s.txs tid _ (fun t => patchTx_id t data)]
          exact hnd
        · intro t ht
          obtain ⟨t1, ht1, rfl⟩ := List.mem_map.mp ht
          show (if t1.id = tid then _ else t1).id < s.nextId
          split
          · rw [patchTx_id]
            exact hlt t1 ht1
          · exact hlt t1 ht1
        · show ∀ u ∈ updatedUnits s t0 data,
            u.balance = txSum (setTx s.txs tid fun t => patchTx t data) u.id
          rcases hgood.2.2 with hst | hst | hst
          · -- no status patch: the patched row contributes the same delta
            rw [hst] at hps
            simp only [Option.getD_none] at hps
            have heq : ∀ w, txDelta w (patchTx t0 data) = txDelta w t0 :=
              fun w => txDelta_congr _ _ hpu hps hpt hpa w
            have hU : updatedUnits s t0 data = s.units := by
              simp [updatedUnits, hst]
            rw [hU]
            apply unchanged_units_ok s _ hbal
            intro u hu
            rw [hsum u.id, heq]
            ring
          · -- status patched to cancelled
            rw [hst] at hps
            simp only [Option.getD_some] at hps
            have hzero : ∀ w, txDelta w (patchTx t0 data) = 0 := by
              intro w
              apply txDelta_not_confirmed
              rw [hps]
              intro hq
              exact TransactionStatus.noConfusion hq
            by_cases hconf : t0.status = TransactionStatus.confirmed
            · have hU : updatedUnits s t0 data = reverseBalance s t0 := by
                simp [updatedUnits, hst, hconf]
              rw [hU]
              apply reverseBalance_ok s t0 _ hbal hconf
              intro w
              rw [hsum w, hzero]
              ring
            · have hU : updatedUnits s t0 data = s.units := by
                simp [updatedUnits, hst, hconf]
              rw [hU]
              apply unchanged_units_ok s _ hbal
              intro u hu
              rw [hsum u.id, hzero, txDelta_not_confirmed t0 u.id hconf]
              ring
          · -- status patched to refunded
            rw [hst] at hps
            simp only [Option.getD_some] at hps
            have hzero : ∀ w, txDelta w (patchTx t0 data) = 0 := by
              intro w
              apply txDelta_not_confirmed
              rw [hps]
              intro hq
              exact TransactionStatus.noConfusion hq
            by_cases hconf : t0.status = TransactionStatus.confirmed
            · have hU : updatedUnits s t0 data = reverseBalance s t0 := by
                simp [updatedUnits, hst, hconf]
              rw [hU]
              apply reverseBalance_ok s t0 _ hbal hconf
              intro w
              rw [hsum w, hzero]
              ring
            · have hU : updatedUnits s t0 data = s.units := by
                simp [updatedUnits, hst, hconf]
              rw [hU]
              apply unchanged_units_ok s _ hbal
              intro u hu
              rw [hsum u.id, hzero, txDelta_not_confirmed t0 u.id hconf]
              ring

theorem cancelTransaction_inv (s : State) (tid : Nat) (hinv : Inv s)
    (s' : State) (hok : cancelTransaction s tid = .ok s') : Inv s' := by
  obtain ⟨hnd, hlt, hbal⟩ := hinv
  simp only [cancelTransaction] at hok
  split at hok
  · exact Except.noConfusion hok
  next t0 hfind =>
    split at hok
    · exact Except.noConfusion hok
    next hncan =>
      simp only [Except.ok.injEq] at hok
      subst hok
      obtain ⟨hmem, hid⟩ := findTx_mem s tid t0 hfind
      have hsum := fun w => txSum_setTx s.txs tid w
        (fun t => { t with status := TransactionStatus.cancelled }) t0
        hnd hmem hid
      have hzero : ∀ w,
          txDelta w { t0 with status := TransactionStatus.cancelled } = 0 :=
        fun w => txDelta_not_confirmed _ w
          (fun hq => TransactionStatus.noConfusion hq)
      refine ⟨?_, ?_, ?_⟩
      · show ((setTx s.txs tid
          (fun t => { t with status := TransactionStatus.cancelled })).map
            (fun t => t.id)).Nodup
        rw [setTx_map_id s.txs tid
          (fun t => { t with status := TransactionStatus.cancelled })
          (fun t => rfl)]
        exact hnd
      · intro t ht
        obtain ⟨t1, ht1, rfl⟩ := List.mem_map.mp ht
        show (if t1.id = tid then _ else t1).id < s.nextId
        split
        · exact hlt t1 ht1
        · exact hlt t1 ht1
      · show ∀ u ∈ cancelledUnits s t0,
          u.balance = txSum (setTx s.txs tid
            fun t => { t with status := TransactionStatus.cancelled }) u.id
        by_cases hconf : t0.status = TransactionStatus.confirmed
        · have hU : cancelledUnits s t0 = reverseBalance s t0 := by
            simp [cancelledUnits, hconf]
          rw [hU]
          apply reverseBalance_ok s t0 _ hbal hconf
          intro w
          rw [hsum w, hzero]
          ring
        · have hU : cancelledUnits s t0 = s.units := by
            simp [cancelledUnits, hconf]
          rw [hU]
          apply unchanged_units_ok s _ hbal
          intro u hu
          rw [hsum u.id, hzero, txDelta_not_confirmed t0 u.id hconf]
          ring

/-- One step preserves the invariant (for the covered operation shapes). -/
theorem step_inv (s : State) (op : Op) (hinv : Inv s) (hgood : GoodOp op) :
    Inv (step s op) := by
  cases op with
  | create data =>
    simp only [step]
    cases h : createTransaction s data with
    | ok p =>
      obtain ⟨s', nb⟩ := p
      exact createTransaction_inv s data hinv s' nb h
    | error e => exact hinv
  | update tid data =>
    simp only [step]
    cases h : updateTransaction s tid data with
    | ok s' => exact updateTransaction_inv s tid data hinv hgood s' h
    | error e => exact hinv
  | cancel tid =>
    simp only [step]
    cases h : cancelTransaction s tid with
    | ok s' => exact cancelTransaction_inv s tid hinv s' h
    | error e => exact hinv

/-- A whole run of covered operations preserves the invariant. -/
theorem run_inv (ops : List Op) (s : State) (hinv : Inv s)
    (hgood : ∀ op ∈ ops, GoodOp op) : Inv (run s ops) := by
  induction ops generalizing s with
  | nil => exact hinv
  | cons op ops ih =>
    exact ih (step s op) (step_inv s op hinv (hgood op (by simp)))
      (fun o ho => hgood o (by simp [ho]))

theorem createCore_ok_txs (s : State) (data : TransactionCreate)
    (category : Category) (unitFound : Option CondoUnit) (s' : State)
    (nb : Option Int)
    (hok : createCore s data category unitFound = .ok (s', nb)) :
    s'.txs = s.txs ++ [newTxOf s data] := by
  simp only [createCore] at hok
  split at hok
  · exact Except.noConfusion hok
  · cases unitFound <;>
      simp only [Except.ok.injEq, Prod.mk.injEq] at hok <;>
      obtain ⟨h, -⟩ := hok <;> subst h <;> rfl

theorem createTransaction_ok_txs (s : State) (data : TransactionCreate)
    (s' : State) (nb : Option Int)
    (hok : createTransaction s data = .ok (s', nb)) :
    s'.txs = s.txs ++ [newTxOf s data] := by
  simp only [createTransaction] at hok
  split at hok
  · exact Except.noConfusion hok
  next category hcat =>
    split at hok
    · exact Except.noConfusion hok
    · split at hok
      next uid hdu =>
        split at hok
        · exact Except.noConfusion hok
        next u hu => exact createCore_ok_txs _ _ _ _ _ _ hok
      next hdu =>
        split at hok
        · exact Except.noConfusion hok
        · exact createCore_ok_txs _ _ _ _ _ _ hok

/-- Claim C2 (confirmed): for every fiscal-period string and date with
month truncation `T = d.period`, the classifier flags advance exactly when
`T < fiscal_period` (Python's `fiscal_period > transaction_period`), late
exactly when `fiscal_period < T`, never both, and neither flag exactly when
the strings are equal — so the outcome is exactly one of advance, late,
normal. -/
theorem classify_payment_trichotomy (fiscal_period : String) (d : Date) :
    ((classify_payment fiscal_period d).1 = true ↔
      strLtB d.period fiscal_period = true) ∧
    ((classify_payment fiscal_period d).2 = true ↔
      strLtB fiscal_period d.period = true) ∧
    ((classify_payment fiscal_period d).1 = true →
      (classify_payment fiscal_period d).2 = false) ∧
    ((classify_payment fiscal_period d).1 = false ∧
      (classify_payment fiscal_period d).2 = false ↔
      fiscal_period = d.period) := by
  refine ⟨Iff.rfl, Iff.rfl, ?_, ?_, ?_⟩
  · intro h
    exact strLtB_asymm _ _ h
  · rintro ⟨h1, h2⟩
    exact strLtB_eq fiscal_period d.period h2 h1
  · intro h
    subst h
    exact ⟨strLtB_irrefl _, strLtB_irrefl _⟩

/-- Witness for C2 at the concrete pair (2025-07, 2025-06-20): an advance
payment, never both flags. -/
theorem classify_payment_trichotomy_witness :
    ((classify_payment "2025-07" ⟨2025, 6, 20⟩).1 = true ↔
      strLtB (Date.period ⟨2025, 6, 20⟩) "2025-07" = true) ∧
    ((classify_payment "2025-07" ⟨2025, 6, 20⟩).2 = true ↔
      strLtB "2025-07" (Date.period ⟨2025, 6, 20⟩) = true) ∧
    ((classify_payment "2025-07" ⟨2025, 6, 20⟩).1 = true →
      (classify_payment "2025-07" ⟨2025, 6, 20⟩).2 = false) ∧
    ((classify_payment "2025-07" ⟨2025, 6, 20⟩).1 = false ∧
      (classify_payment "2025-07" ⟨2025, 6, 20⟩).2 = false ↔
      "2025-07" = Date.period ⟨2025, 6, 20⟩) :=
  classify_payment_trichotomy "2025-07" ⟨2025, 6, 20⟩

/-- Claim C6 (confirmed): the derived totals of the financial statement
satisfy, exactly and for every input: `total_income_cash = normal + late +
advances_received`, `net_period_flow = total_income_cash − total_expenses`,
`final_balance = initial_balance (opening remainder) + net_period_flow`,
`available_balance = final_balance − advance_reserve`. -/
theorem reconciliation_identity (cats : List Category)
    (txs : List Transaction) (tenant year month : Nat) :
    (getFinancialStatus cats txs tenant year month).total_income_cash =
      (getFinancialStatus cats txs tenant year month).normal_fees +
      (getFinancialStatus cats txs tenant year month).late_fees_received +
      (getFinancialStatus cats txs tenant year month).advances_received ∧
    (getFinancialStatus cats txs tenant year month).net_period_flow =
      (getFinancialStatus cats txs tenant year month).total_income_cash -
      (getFinancialStatus cats txs tenant year month).total_expenses ∧
    (getFinancialStatus cats txs tenant year month).final_balance =
      (getFinancialStatus cats txs tenant year month).initial_balance +
      (getFinancialStatus cats txs tenant year month).net_period_flow ∧
    (getFinancialStatus cats txs tenant year month).available_balance =
      (getFinancialStatus cats txs tenant year month).final_balance -
      (getFinancialStatus cats txs tenant year month).advance_reserve :=
  ⟨rfl, rfl, rfl, rfl⟩

/-- Claim C9 (code bug): the service-level `get_transaction` filters by id
only — it has no tenant parameter at all — so it returns condominium 2's
transaction to whatever caller asks for that id.  The route layer passes a
`condominium_id=` keyword argument that the service signature does not
accept, so the documented tenant check does not exist. -/
theorem get_transaction_ignores_tenant :
    getTransaction c9State 7 = some c9Tx ∧ c9Tx.condominium_id = some 2 :=
  ⟨rfl, rfl⟩

/-- Claim C10 (confirmed): a create that omits `fiscal_period` stores the
`YYYY-MM` truncation of `transaction_date` as the fiscal period, and the
classifier therefore leaves both the advance and the late flag false on the
created transaction. -/
theorem default_fiscal_period_normal (s : State) (data : TransactionCreate)
    (s' : State) (nb : Option Int) (hfp : data.fiscal_period = none)
    (hok : createTransaction s data = .ok (s', nb)) :
    s'.txs = s.txs ++ [newTxOf s data] ∧
    (newTxOf s data).fiscal_period = data.transaction_date.period ∧
    (newTxOf s data).is_advance_payment = false ∧
    (newTxOf s data).is_late_payment = false := by
  have hdef : defaultFiscalPeriod data = data.transaction_date.period := by
    simp [defaultFiscalPeriod, hfp]
  refine ⟨createTransaction_ok_txs s data s' nb hok, ?_, ?_, ?_⟩
  · show defaultFiscalPeriod data = data.transaction_date.period
    exact hdef
  · show (classify_payment (defaultFiscalPeriod data)
      data.transaction_date).1 = false
    rw [hdef]
    exact strLtB_irrefl _
  · show (classify_payment (defaultFiscalPeriod data)
      data.transaction_date).2 = false
    rw [hdef]
    exact strLtB_irrefl _

/-- Witness for C10: the concrete unit-less expense without fiscal period is
created with period 2025-06 and both flags false. -/
theorem default_fiscal_period_normal_witness :
    ({ exState with txs := [newTxOf exState c10Data], nextId := 1 }
        : State).txs =
      exState.txs ++ [newTxOf exState c10Data] ∧
    (newTxOf exState c10Data).fiscal_period =
      Date.period ⟨2025, 6, 5⟩ ∧
    (newTxOf exState c10Data).is_advance_payment = false ∧
    (newTxOf exState c10Data).is_late_payment = false :=
  default_fiscal_period_normal exState c10Data
    { exState with txs := [newTxOf exState c10Data], nextId := 1 } none
    rfl rfl

/-- Claim C1 (counterexample): create a confirmed income of 100 for unit 0,
then update the transaction's amount to 200.  The stored balance stays 100
while the confirmed-income-minus-expense sum becomes 200, so the balance
invariant fails across an amount update. -/
theorem balance_invariant_counterexample :
    (run exState c1BadOps).units = [{ unit0 with balance := 100 }] ∧
    confirmedIncomeSum (run exState c1BadOps).txs 0 -
      confirmedExpenseSum (run exState c1BadOps).txs 0 = 200 ∧
    decide (∀ u ∈ (run exState c1BadOps).units,
      u.balance = confirmedIncomeSum (run exState c1BadOps).txs u.id -
        confirmedExpenseSum (run exState c1BadOps).txs u.id) = false :=
  ⟨by decide, by decide, by decide⟩

/-- Claim C1 (amended): the balance invariant — every unit's stored balance
equals the sum of its confirmed income amounts minus its confirmed expense
amounts — holds across any sequence of create, cancel and update
operations, provided each update patch leaves amount and unit unchanged and
only sets a terminal status (cancelled/refunded) if it sets one.  (The
counterexample shows the restriction on updates is necessary: the source
adjusts no balance when an amount changes.) -/
theorem balance_invariant_amended (s0 : State) (ops : List Op)
    (hinv : Inv s0) (hgood : ∀ op ∈ ops, GoodOp op) :
    ∀ u ∈ (run s0 ops).units,
      u.balance = confirmedIncomeSum (run s0 ops).txs u.id -
        confirmedExpenseSum (run s0 ops).txs u.id := by
  intro u hu
  rw [← txSum_eq_income_sub_expense]
  exact (run_inv ops s0 hinv hgood).2.2 u hu

/-- Witness for the amended C1: after pay 100, charge 40, refund the charge
and cancel the payment, unit 0's balance is back to 0 and matches the
confirmed sums. -/
theorem balance_invariant_amended_witness :
    unit0.balance = confirmedIncomeSum (run exState c1GoodOps).txs 0 -
      confirmedExpenseSum (run exState c1GoodOps).txs 0 :=
  balance_invariant_amended exState c1GoodOps (by decide) (by decide)
    unit0 (by decide)

theorem hasDuplicatePayment_true_iff (s : State) (uid cid : Nat)
    (fp : String) :
    hasDuplicatePayment s uid cid fp = true ↔
      ∃ t ∈ s.txs, t.unit_id = some uid ∧ t.category_id = cid ∧
        t.fiscal_period = fp ∧ t.ttype = CategoryType.income ∧
        t.status ≠ TransactionStatus.cancelled := by
  simp [hasDuplicatePayment, List.any_eq_true, and_assoc]

theorem createTransaction_reduces (s : State) (data : TransactionCreate)
    (category : Category) (u : CondoUnit) (uid : Nat)
    (hcat : findCategory s data.category_id = some category)
    (hty : category.ctype = data.ttype)
    (hdu : data.unit_id = some uid)
    (hu : findUnit s uid = some u) :
    createTransaction s data = createCore s data category (some u) := by
  simp only [createTransaction, hcat, hdu, hu]
  rw [if_neg (fun hq => hq hty)]

/-- Claim C3 (confirmed): with a valid maintenance-fee income create for an
existing unit, the call fails with `DUPLICATE_PAYMENT_SAME_PERIOD` and
leaves the store unchanged exactly when a non-cancelled income transaction
for the same (unit, category, fiscal period) already exists; when every
matching transaction is cancelled, the call succeeds and appends the new
transaction. -/
theorem duplicate_payment_guard (s : State) (data : TransactionCreate)
    (category : Category) (u : CondoUnit) (uid : Nat)
    (hcat : findCategory s data.category_id = some category)
    (hname : category.name = "Cuota de Mantenimiento")
    (htype : category.ctype = CategoryType.income)
    (hdtype : data.ttype = CategoryType.income)
    (hdu : data.unit_id = some uid)
    (hu : findUnit s uid = some u) :
    ((∃ t ∈ s.txs, t.unit_id = some uid ∧ t.category_id = data.category_id ∧
        t.fiscal_period = defaultFiscalPeriod data ∧
        t.ttype = CategoryType.income ∧
        t.status ≠ TransactionStatus.cancelled) →
      createTransaction s data = .error .duplicatePaymentSamePeriod ∧
      step s (.create data) = s) ∧
    ((∀ t ∈ s.txs, t.unit_id = some uid → t.category_id = data.category_id →
        t.fiscal_period = defaultFiscalPeriod data →
        t.ttype = CategoryType.income →
        t.status = TransactionStatus.cancelled) →
      ∃ s' nb, createTransaction s data = .ok (s', nb) ∧
        s'.txs = s.txs ++ [newTxOf s data]) := by
  have hred := createTransaction_reduces s data category u uid hcat
    (htype.trans hdtype.symm) hdu hu
  constructor
  · intro hex
    have hdup : hasDuplicatePayment s uid data.category_id
        (defaultFiscalPeriod data) = true :=
      (hasDuplicatePayment_true_iff s uid data.category_id
        (defaultFiscalPeriod data)).mpr hex
    have herr : createTransaction s data =
        .error .duplicatePaymentSamePeriod := by
      rw [hred]
      simp only [createCore, hdu]
      rw [if_pos ⟨hdtype, rfl, hname, hdup⟩]
    refine ⟨herr, ?_⟩
    simp [step, herr]
  · intro hall
    have hdup : hasDuplicatePayment s uid data.category_id
        (defaultFiscalPeriod data) = false := by
      cases hd : hasDuplicatePayment s uid data.category_id
        (defaultFiscalPeriod data) with
      | false => rfl
      | true =>
        exfalso
        obtain ⟨t, ht, h1, h2, h3, h4, h5⟩ :=
          (hasDuplicatePayment_true_iff s uid data.category_id
            (defaultFiscalPeriod data)).mp hd
        exact h5 (hall t ht h1 h2 h3 h4)
    refine ⟨{ s with
        txs := s.txs ++ [newTxOf s data]
        units := setUnit s.units u.id
          (fun v => { v with balance := v.balance +
            (if data.ttype = CategoryType.income then data.amount
             else -data.amount) })
        nextId := s.nextId + 1 },
      some (u.balance +
        (if data.ttype = CategoryType.income then data.amount
         else -data.amount)), ?_, rfl⟩
    rw [hred]
    simp only [createCore, hdu]
    rw [if_neg (fun hq => by
      have h4 := hq.2.2.2
      rw [hdup] at h4
      exact Bool.noConfusion h4)]

/-- Witness for C3: in a store already holding the confirmed June payment
of unit 0, a second June maintenance payment is rejected and the store is
unchanged. -/
theorem duplicate_payment_guard_witness :
    createTransaction (run exState [Op.create payData]) payData =
      .error .duplicatePaymentSamePeriod ∧
    step (run exState [Op.create payData]) (.create payData) =
      run exState [Op.create payData] :=
  (duplicate_payment_guard (run exState [Op.create payData]) payData feeCat
    { unit0 with balance := 100 } 0 (by decide) rfl rfl rfl rfl (by decide)).1
    (by decide)

theorem find_setTx (txs : List Transaction) (tid : Nat)
    (f : Transaction → Transaction) (hf : ∀ t, (f t).id = t.id)
    (t0 : Transaction)
    (h : txs.find? (fun t => t.id == tid) = some t0) :
    (setTx txs tid f).find? (fun t => t.id == tid) = some (f t0) := by
  induction txs with
  | nil => exact Option.noConfusion h
  | cons a as ih =>
    by_cases ha : a.id = tid
    · rw [List.find?_cons_of_pos _ (by simpa using ha)] at h
      injection h with h
      subst h
      simp only [setTx, List.map_cons, if_pos ha]
      rw [List.find?_cons_of_pos _ (by simp [hf, ha])]
    · rw [List.find?_cons_of_neg _ (by simpa using ha)] at h
      simp only [setTx, List.map_cons, if_neg ha]
      rw [List.find?_cons_of_neg _ (by simpa using ha)]
      have := ih h
      simpa [setTx] using this

/-- Claim C4 (counterexample): cancelling a *refunded* transaction does not
fail — the source only rejects status CANCELLED — it transitions the
terminal refunded transaction to cancelled (without touching balances). -/
theorem cancel_refunded_counterexample :
    (run exState [Op.create payData,
      Op.update 0 { status := some TransactionStatus.refunded }]).txs.map
        (fun t => t.status) = [TransactionStatus.refunded] ∧
    cancelTransaction (run exState [Op.create payData,
      Op.update 0 { status := some TransactionStatus.refunded }]) 0 =
      .ok { run exState [Op.create payData,
              Op.update 0 { status := some TransactionStatus.refunded }] with
            txs := setTx (run exState [Op.create payData,
              Op.update 0 { status := some TransactionStatus.refunded }]).txs
              0 fun t => { t with status := TransactionStatus.cancelled } } :=
  ⟨by decide, by rfl⟩

/-- Claim C4 (amended): `cancel_transaction` fails with `ALREADY_CANCELLED`
— leaving the store untouched — exactly when the transaction is already
*cancelled*; on a refunded transaction it succeeds, moves it to cancelled
and leaves every balance unchanged; on a confirmed transaction it reverses
the balance once and a second cancel of the same id then fails with
`ALREADY_CANCELLED`. -/
theorem cancel_transaction_amended (s : State) (tid : Nat)
    (t0 : Transaction) (hfind : findTx s tid = some t0) :
    (t0.status = TransactionStatus.cancelled →
      cancelTransaction s tid = .error .alreadyCancelled ∧
      step s (.cancel tid) = s) ∧
    (t0.status = TransactionStatus.refunded →
      cancelTransaction s tid = .ok
        { s with
          txs := setTx s.txs tid
            fun t => { t with status := TransactionStatus.cancelled }
          units := s.units }) ∧
    (t0.status = TransactionStatus.confirmed →
      cancelTransaction s tid = .ok
        { s with
          txs := setTx s.txs tid
            fun t => { t with status := TransactionStatus.cancelled }
          units := reverseBalance s t0 } ∧
      ∀ s', cancelTransaction s tid = .ok s' →
        cancelTransaction s' tid = .error .alreadyCancelled) := by
  refine ⟨?_, ?_, ?_⟩
  · intro hst
    have herr : cancelTransaction s tid = .error .alreadyCancelled := by
      simp only [cancelTransaction, hfind]
      rw [if_pos hst]
    exact ⟨herr, by simp [step, herr]⟩
  · intro hst
    simp only [cancelTransaction, hfind]
    rw [if_neg (by rw [hst]; intro hq; exact TransactionStatus.noConfusion hq)]
    have hcu : cancelledUnits s t0 = s.units := by
      unfold cancelledUnits
      rw [if_neg (by rw [hst]; intro hq; exact
        TransactionStatus.noConfusion hq)]
    rw [hcu]
  · intro hst
    have hokr : cancelTransaction s tid = .ok
        { s with
          txs := setTx s.txs tid
            fun t => { t with status := TransactionStatus.cancelled }
          units := reverseBalance s t0 } := by
      simp only [cancelTransaction, hfind]
      rw [if_neg (by rw [hst]; intro hq; exact
        TransactionStatus.noConfusion hq)]
      have hcu : cancelledUnits s t0 = reverseBalance s t0 := by
        unfold cancelledUnits
        rw [if_pos hst]
      rw [hcu]
    refine ⟨hokr, ?_⟩
    intro s' hok'
    rw [hokr] at hok'
    injection hok' with hok'
    subst hok'
    have hfind' : findTx
        { s with
          txs := setTx s.txs tid
            fun t => { t with status := TransactionStatus.cancelled }
          units := reverseBalance s t0 } tid =
        some { t0 with status := TransactionStatus.cancelled } := by
      show (setTx s.txs tid
        fun t => { t with status := TransactionStatus.cancelled }).find?
          (fun t => t.id == tid) = _
      exact find_setTx s.txs tid
        (fun t => { t with status := TransactionStatus.cancelled })
        (fun t => rfl) t0 hfind
    simp only [cancelTransaction, hfind']
    rfl

theorem sumIf_cons (t : Transaction) (txs : List Transaction)
    (p : Transaction → Prop) [DecidablePred p] :
    sumIf (t :: txs) p = (if p t then t.amount else 0) + sumIf txs p := by
  simp [sumIf]

theorem countIf_cons (t : Transaction) (txs : List Transaction)
    (p : Transaction → Prop) [DecidablePred p] :
    countIf (t :: txs) p = (if p t then 1 else 0) + countIf txs p := by
  by_cases h : p t <;> simp [countIf, List.filter_cons, h, Nat.add_comm]

theorem initialBalanceSum_cons (internal : Option Nat) (t : Transaction)
    (txs : List Transaction) (tenant : Nat) (ms : Date) :
    initialBalanceSum internal (t :: txs) tenant ms =
      (if t.status = TransactionStatus.confirmed ∧
          t.condominium_id = some tenant ∧
          Date.ltB t.transaction_date ms = true then
        (if t.ttype = CategoryType.income then t.amount
         else if excludeInternal internal t = true then -t.amount else 0)
       else 0) + initialBalanceSum internal txs tenant ms := by
  simp [initialBalanceSum]

/-- Claim C5 (confirmed), in three parts.  First: once the virtual-issuance
category resolves, an expense transaction in that category contributes to
*no* field of the financial statement — not to `total_expenses`, not to the
opening remainder, regardless of amount.  Second: an income transaction's
category is irrelevant to the whole statement, so income is never excluded
by the filter.  Third: when the tenant has no virtual-issuance category,
the expense filter excludes nothing — an expense contributes to
`total_expenses` whenever it is confirmed, of the tenant, common and in the
month. -/
theorem virtual_charge_filter :
    (∀ (cats : List Category) (txs : List Transaction)
        (tenant year month cid : Nat) (t : Transaction),
      resolveInternalChargeId cats tenant = some cid →
      t.ttype = CategoryType.expense → t.category_id = cid →
      getFinancialStatus cats (t :: txs) tenant year month =
        getFinancialStatus cats txs tenant year month) ∧
    (∀ (cats : List Category) (txs : List Transaction)
        (tenant year month : Nat) (t : Transaction) (c : Nat),
      t.ttype = CategoryType.income →
      getFinancialStatus cats ({ t with category_id := c } :: txs) tenant
          year month =
        getFinancialStatus cats (t :: txs) tenant year month) ∧
    (∀ (cats : List Category) (txs : List Transaction)
        (tenant year month : Nat) (t : Transaction),
      resolveInternalChargeId cats tenant = none →
      t.ttype = CategoryType.expense →
      (getFinancialStatus cats (t :: txs) tenant year month).total_expenses =
        (if t.status = TransactionStatus.confirmed ∧
            t.condominium_id = some tenant ∧
            isCommonOk cats t = true ∧
            Date.ltB t.transaction_date (monthStart year month) = false ∧
            Date.ltB t.transaction_date (monthEnd year month) = true
         then t.amount else 0) +
        (getFinancialStatus cats txs tenant year month).total_expenses) := by
  refine ⟨?_, ?_, ?_⟩
  · intro cats txs tenant year month cid t hres hexp hcid
    simp only [getFinancialStatus, sumIf_cons, countIf_cons,
      initialBalanceSum_cons, hres, hexp, hcid, excludeInternal,
      bne_self_eq_false]
    simp
  · intro cats txs tenant year month t c hinc
    simp only [getFinancialStatus, sumIf_cons, countIf_cons,
      initialBalanceSum_cons]
    simp [hinc]
  · intro cats txs tenant year month t hres hexp
    simp only [getFinancialStatus, sumIf_cons, hres, hexp, excludeInternal]
    simp [and_assoc]

/-- Witness for C5 at concrete stores: a virtual expense of 999 changes
nothing; re-categorizing an income changes nothing; with no virtual
category, a plain expense of 40 lands in `total_expenses`. -/
theorem virtual_charge_filter_witness :
    getFinancialStatus [virtCat] [{ c9Tx with
        condominium_id := some 1
        category_id := 2 }] 1 2025 6 =
      getFinancialStatus [virtCat] [] 1 2025 6 ∧
    getFinancialStatus [virtCat] [{ newTxOf exState payData with
        category_id := 5 }] 1 2025 6 =
      getFinancialStatus [virtCat] [newTxOf exState payData] 1 2025 6 ∧
    (getFinancialStatus [] [c9Tx] 2 2025 6).total_expenses =
      (if c9Tx.status = TransactionStatus.confirmed ∧
          c9Tx.condominium_id = some 2 ∧
          isCommonOk [] c9Tx = true ∧
          Date.ltB c9Tx.transaction_date (monthStart 2025 6) = false ∧
          Date.ltB c9Tx.transaction_date (monthEnd 2025 6) = true
       then c9Tx.amount else 0) +
      (getFinancialStatus [] [] 2 2025 6).total_expenses :=
  ⟨virtual_charge_filter.1 [virtCat] [] 1 2025 6 2
      { c9Tx with
        condominium_id := some 1
        category_id := 2 } rfl rfl rfl,
   virtual_charge_filter.2.1 [virtCat] [] 1 2025 6
      (newTxOf exState payData) 5 rfl,
   virtual_charge_filter.2.2 [] [] 2 2025 6 c9Tx rfl rfl⟩

theorem mkCharges_length (catId : Nat) (d : Date) (p : String) (n : Nat)
    (us : List CondoUnit) : (mkCharges catId d p n us).length = us.length := by
  induction us generalizing n with
  | nil => rfl
  | cons u us ih => simp [mkCharges, ih]

theorem mkCharges_fields (catId : Nat) (d : Date) (p : String) :
    ∀ (n : Nat) (us : List CondoUnit) (t : Transaction),
      t ∈ mkCharges catId d p n us →
      t.ttype = CategoryType.expense ∧
      t.status = TransactionStatus.confirmed ∧
      t.transaction_date = d ∧ t.fiscal_period = p ∧
      t.is_advance_payment = false ∧ t.is_late_payment = false ∧
      t.category_id = catId ∧
      ∃ u ∈ us, t.unit_id = some u.id ∧ t.amount = feeOf u := by
  intro n us
  induction us generalizing n with
  | nil =>
    intro t ht
    simp [mkCharges] at ht
  | cons u us ih =>
    intro t ht
    rcases List.mem_cons.mp ht with rfl | hmem
    · exact ⟨rfl, rfl, rfl, rfl, rfl, rfl, rfl, u, List.mem_cons_self u us,
        rfl, rfl⟩
    · obtain ⟨f1, f2, f3, f4, f5, f6, f7, v, hv, h8, h9⟩ :=
        ih (n + 1) t hmem
      exact ⟨f1, f2, f3, f4, f5, f6, f7, v, List.mem_cons_of_mem u hv,
        h8, h9⟩

theorem mkCharges_filter_length (catId : Nat) (d : Date) (p : String)
    (n : Nat) (us : List CondoUnit) :
    ((mkCharges catId d p n us).filter fun t =>
      t.category_id == catId && t.fiscal_period == p &&
      t.ttype == CategoryType.expense).length = us.length := by
  induction us generalizing n with
  | nil => rfl
  | cons u us ih => simp [mkCharges, List.filter_cons, chargeTx, ih]

theorem map_decrement_of_no_occupied (units : List CondoUnit)
    (h : ∀ u ∈ units, u.status ≠ UnitStatus.occupied) :
    (units.map fun u =>
      if u.status = UnitStatus.occupied then
        { u with balance := u.balance - feeOf u }
      else u) = units := by
  induction units with
  | nil => rfl
  | cons u us ih =>
    rw [List.map_cons, if_neg (h u (List.mem_cons_self u us)),
      ih fun v hv => h v (List.mem_cons_of_mem u hv)]

theorem job_cases (s : JobState) (today : Date) (r : JobResult)
    (s1 : JobState) (heq : generate_monthly_fees_job s today = (r, s1)) :
    (s1 = s ∧ r.count = 0) ∨
    (∃ category admin, jobCategory s = [category] ∧
      jobAdmin s = some admin ∧
      s1.categories = s.categories ∧ s1.users = s.users ∧
      existingCharges s1 category.id today.period > 0) := by
  unfold generate_monthly_fees_job at heq
  split at heq
  next category hcat =>
    split at heq
    · -- no admin
      injection heq with h1 h2
      exact Or.inl ⟨h2.symm, by rw [← h1]⟩
    next admin hadmin =>
      split at heq
      · -- charges already exist
        injection heq with h1 h2
        exact Or.inl ⟨h2.symm, by rw [← h1]⟩
      next hex =>
        split at heq
        · -- no occupied units
          injection heq with h1 h2
          exact Or.inl ⟨h2.symm, by rw [← h1]⟩
        next hne =>
          injection heq with h1 h2
          right
          refine ⟨category, admin, hcat, hadmin, by rw [← h2],
            by rw [← h2], ?_⟩
          rw [← h2]
          show ((s.txs ++ mkCharges category.id ⟨today.year, today.month, 1⟩
            today.period s.nextId (occupiedUnits s)).filter _).length > 0
          rw [List.filter_append, List.length_append]
          have h3 := mkCharges_filter_length category.id
            ⟨today.year, today.month, 1⟩ today.period s.nextId
            (occupiedUnits s)
          have h4 : 0 < (occupiedUnits s).length := by
            cases hcase : occupiedUnits s with
            | nil => rw [hcase] at hne; exact absurd rfl hne
            | cons a l => simp [hcase]
          omega
  next hother =>
    injection heq with h1 h2
    exact Or.inl ⟨h2.symm, by rw [← h1]⟩

theorem job_abort (s : JobState) (today : Date) (category : Category)
    (admin : JobUser) (hc : jobCategory s = [category])
    (ha : jobAdmin s = some admin)
    (hex : existingCharges s category.id today.period > 0) :
    generate_monthly_fees_job s today =
      ({ success := true, count := 0,
         existing := existingCharges s category.id today.period }, s) := by
  simp only [generate_monthly_fees_job, hc, ha]
  rw [if_pos hex]

/-- Claim C7 (confirmed), two parts.  First: running the monthly job twice
for the same day always leaves the store of the first run untouched and
reports zero created charges on the second run.  Second: when the category
and an admin resolve and a confirmed expense transaction for (category,
current fiscal period) already exists, the run is a successful no-op that
reports the existing count and performs no writes. -/
theorem automation_idempotent :
    (∀ (s : JobState) (today : Date),
      (generate_monthly_fees_job
          (generate_monthly_fees_job s today).2 today).2 =
        (generate_monthly_fees_job s today).2 ∧
      (generate_monthly_fees_job
          (generate_monthly_fees_job s today).2 today).1.count = 0) ∧
    (∀ (s : JobState) (today : Date) (category : Category)
        (admin : JobUser) (t : Transaction),
      jobCategory s = [category] → jobAdmin s = some admin →
      t ∈ s.txs → t.status = TransactionStatus.confirmed →
      t.ttype = CategoryType.expense → t.category_id = category.id →
      t.fiscal_period = today.period →
      generate_monthly_fees_job s today =
        ({ success := true, count := 0,
           existing := existingCharges s category.id today.period }, s) ∧
      existingCharges s category.id today.period > 0) := by
  constructor
  · intro s today
    rcases job_cases s today (generate_monthly_fees_job s today).1
      (generate_monthly_fees_job s today).2 rfl with
      ⟨h1, hcnt⟩ | ⟨c, admin, hc, ha, hcats, husers, hex⟩
    · rw [h1]
      exact ⟨h1, hcnt⟩
    · have hc1 : jobCategory (generate_monthly_fees_job s today).2 = [c] := by
        unfold jobCategory
        rw [hcats]
        exact hc
      have ha1 : jobAdmin (generate_monthly_fees_job s today).2 =
          some admin := by
        unfold jobAdmin
        rw [husers]
        exact ha
      have habort := job_abort (generate_monthly_fees_job s today).2 today
        c admin hc1 ha1 hex
      rw [habort]
      exact ⟨rfl, rfl⟩
  · intro s today category admin t hc ha hmem hst hty hcatid hfp
    have hex : existingCharges s category.id today.period > 0 := by
      unfold existingCharges
      exact List.length_pos_of_mem (List.mem_filter.mpr
        ⟨hmem, by simp [hcatid, hfp, hty]⟩)
    exact ⟨job_abort s today category admin hc ha hex, hex⟩

/-- Witness for C7: the fresh two-unit store is charged once and the second
run is a no-op; the already-charged store aborts reporting the existing
charge. -/
theorem automation_idempotent_witness :
    ((generate_monthly_fees_job
        (generate_monthly_fees_job jobStateFresh ⟨2025, 7, 1⟩).2
        ⟨2025, 7, 1⟩).2 =
      (generate_monthly_fees_job jobStateFresh ⟨2025, 7, 1⟩).2 ∧
     (generate_monthly_fees_job
        (generate_monthly_fees_job jobStateFresh ⟨2025, 7, 1⟩).2
        ⟨2025, 7, 1⟩).1.count = 0) ∧
    (generate_monthly_fees_job jobStateDone ⟨2025, 6, 1⟩ =
      ({ success := true, count := 0,
         existing := existingCharges jobStateDone virtCat.id
           (Date.period ⟨2025, 6, 1⟩) }, jobStateDone) ∧
     existingCharges jobStateDone virtCat.id
       (Date.period ⟨2025, 6, 1⟩) > 0) :=
  ⟨automation_idempotent.1 jobStateFresh ⟨2025, 7, 1⟩,
   automation_idempotent.2 jobStateDone ⟨2025, 6, 1⟩ virtCat adminU jobTx
     (by decide) (by decide) (by decide) rfl rfl rfl (by decide)⟩

/-- Claim C8 (confirmed): a first (non-aborted) run — category and admin
resolve, no charge exists yet for the period — appends exactly one charge
per occupied unit, each a confirmed expense dated the first of the month
with fiscal period = current period, both flags false and amount = the
unit's monthly fee (falling back to 300 when the fee is unset, i.e. 0, the
schema default), and decrements each occupied unit's balance by that
amount. -/
theorem automation_first_run (s : JobState) (today : Date)
    (category : Category) (admin : JobUser)
    (hc : jobCategory s = [category]) (ha : jobAdmin s = some admin)
    (hex : existingCharges s category.id today.period = 0) :
    (generate_monthly_fees_job s today).2.txs =
      s.txs ++ mkCharges category.id ⟨today.year, today.month, 1⟩
        today.period s.nextId (occupiedUnits s) ∧
    (generate_monthly_fees_job s today).2.units =
      s.units.map (fun u =>
        if u.status = UnitStatus.occupied then
          { u with balance := u.balance - feeOf u }
        else u) ∧
    (generate_monthly_fees_job s today).1.count =
      (occupiedUnits s).length ∧
    (generate_monthly_fees_job s today).1.success = true ∧
    (∀ t ∈ mkCharges category.id ⟨today.year, today.month, 1⟩ today.period
        s.nextId (occupiedUnits s),
      t.ttype = CategoryType.expense ∧
      t.status = TransactionStatus.confirmed ∧
      t.transaction_date = ⟨today.year, today.month, 1⟩ ∧
      t.fiscal_period = today.period ∧
      t.is_advance_payment = false ∧ t.is_late_payment = false ∧
      ∃ u ∈ occupiedUnits s, t.unit_id = some u.id ∧
        t.amount = feeOf u) := by
  have hfields : ∀ t ∈ mkCharges category.id ⟨today.year, today.month, 1⟩
      today.period s.nextId (occupiedUnits s),
      t.ttype = CategoryType.expense ∧
      t.status = TransactionStatus.confirmed ∧
      t.transaction_date = ⟨today.year, today.month, 1⟩ ∧
      t.fiscal_period = today.period ∧
      t.is_advance_payment = false ∧ t.is_late_payment = false ∧
      ∃ u ∈ occupiedUnits s, t.unit_id = some u.id ∧
        t.amount = feeOf u := by
    intro t ht
    obtain ⟨f1, f2, f3, f4, f5, f6, -, u, hu, h8, h9⟩ :=
      mkCharges_fields category.id ⟨today.year, today.month, 1⟩
        today.period s.nextId (occupiedUnits s) t ht
    exact ⟨f1, f2, f3, f4, f5, f6, u, hu, h8, h9⟩
  simp only [generate_monthly_fees_job, hc, ha]
  rw [if_neg (by simp [hex])]
  by_cases he : (occupiedUnits s).isEmpty = true
  · rw [if_pos he]
    have hnil : occupiedUnits s = [] := List.isEmpty_iff.mp he
    have hnoocc : ∀ u ∈ s.units, u.status ≠ UnitStatus.occupied := by
      intro u hu hocc
      have := List.filter_eq_nil_iff.mp hnil u hu
      simp [hocc] at this
    refine ⟨?_, ?_, ?_, rfl, ?_⟩
    · rw [hnil]
      simp [mkCharges]
    · exact (map_decrement_of_no_occupied s.units hnoocc).symm
    · rw [hnil]
      rfl
    · rw [hnil]
      intro t ht
      simp [mkCharges] at ht
  · rw [if_neg he]
    exact ⟨rfl, rfl, rfl, rfl, hfields⟩

/-- Witness for C8: charging the fresh store creates one charge per unit —
100 for the configured unit, the 300 fallback for the zero-fee unit — and
decrements the balances. -/
theorem automation_first_run_witness :
    (generate_monthly_fees_job jobStateFresh ⟨2025, 7, 1⟩).2.txs =
      jobStateFresh.txs ++ mkCharges virtCat.id ⟨2025, 7, 1⟩
        (Date.period ⟨2025, 7, 1⟩) jobStateFresh.nextId
        (occupiedUnits jobStateFresh) ∧
    (generate_monthly_fees_job jobStateFresh ⟨2025, 7, 1⟩).2.units =
      jobStateFresh.units.map (fun u =>
        if u.status = UnitStatus.occupied then
          { u with balance := u.balance - feeOf u }
        else u) ∧
    (generate_monthly_fees_job jobStateFresh ⟨2025, 7, 1⟩).1.count =
      (occupiedUnits jobStateFresh).length ∧
    (generate_monthly_fees_job jobStateFresh ⟨2025, 7, 1⟩).1.success =
      true := by
  have h := automation_first_run jobStateFresh ⟨2025, 7, 1⟩ virtCat adminU
    (by decide) (by decide) (by decide)
  exact ⟨h.1, h.2.1, h.2.2.1, h.2.2.2.1⟩

/-- Witness for the amended C4: cancelling the confirmed June payment of
unit 0 reverses the balance once, and a second cancel is rejected. -/
theorem cancel_transaction_amended_witness :
    cancelTransaction (run exState [Op.create payData]) 0 = .ok
      { run exState [Op.create payData] with
        txs := setTx (run exState [Op.create payData]).txs 0
          fun t => { t with status := TransactionStatus.cancelled }
        units := reverseBalance (run exState [Op.create payData])
          (newTxOf exState payData) } ∧
    ∀ s', cancelTransaction (run exState [Op.create payData]) 0 = .ok s' →
      cancelTransaction s' 0 = .error .alreadyCancelled :=
  (cancel_transaction_amended (run exState [Op.create payData]) 0
    (newTxOf exState payData) (by decide)).2.2 (by decide)

end Condo

